import Mathlib

/-!
A shallow embedding of the generation dispatcher and the persisted vector
store of the Anki-Ai repository (`src/utils/llm_handler.py` and
`src/utils/rag.py`), with theorems settling the specification's claims
about them.

Modelling conventions:
* A remote client is abstracted by the outcome of its generation call per
  model name (system instruction, contents and sampling configuration are
  fixed during one dispatch): `.ok` carries the response text, `.error`
  the message of the raised exception.
* `time.sleep` calls (`rate_limit_delay`, the pauses between attempts)
  only delay and are dropped.
* Python strings are modelled over their character lists; `str.strip` and
  the regex class `\s` use the ASCII whitespace set (exotic unicode
  whitespace is outside the model).
* float32 arithmetic of numpy is modelled over the reals.
-/

namespace AnkiAi

/-! ### Python string primitives -/

/-- The whitespace characters of `str.strip()` and of the regex class `\s`
(ASCII subset). -/
def isPySpace (c : Char) : Bool :=
  c = ' ' || c = '\t' || c = '\n' || c = '\r' || c = '\x0b' || c = '\x0c'

/-- Python `str.strip()` on a character list. -/
def pyStrip (l : List Char) : List Char :=
  ((l.dropWhile isPySpace).reverse.dropWhile isPySpace).reverse

/-- `needle` starts `hay`. -/
def startsList : List Char → List Char → Bool
  | [], _ => true
  | _ :: _, [] => false
  | n :: ns, h :: hs => n = h && startsList ns hs

/-- Python `needle in hay` on strings: `needle` occurs contiguously in `hay`. -/
def containsSub (needle : List Char) : List Char → Bool
  | [] => needle.isEmpty
  | h :: hs => startsList needle (h :: hs) || containsSub needle hs

/-- Python `str.lower()` (ASCII model). -/
def lowerStr (s : String) : String :=
  String.mk (s.toList.map Char.toLower)

/-- Truthiness of `api_key and api_key.strip()`: the key is non-empty and
not all whitespace. -/
def usableKey (s : String) : Bool :=
  !s.toList.isEmpty && !(pyStrip s.toList).isEmpty

/-! ### Provider configuration (`configure_gemini`, `configure_openrouter`) -/

/-- A configured client: the outcome of `client.models.generate_content`
(resp. `chat.completions.create`) for each model name. -/
def Client : Type := String → Except String String

/-- The dictionary returned by `configure_gemini`. -/
structure ClientConfig where
  primary : Option Client
  fallbacks : List Client

/-- `configure_gemini(api_key, fallback_keys)`: blank keys are filtered out;
`mk` models `genai.Client(api_key=key)` (client construction is an external
call, modelled as total). -/
def configureGemini (apiKey : String) (fallbackKeys : List String)
    (mk : String → Client) : ClientConfig :=
  { primary := if usableKey apiKey then some (mk apiKey) else none
    fallbacks := (fallbackKeys.filter usableKey).map mk }

/-! ### The generation dispatcher (`_generate_with_retry`) -/

/-- `_retry_on_api_error`: the lower-cased message contains "429",
"resource_exhausted" or "503". -/
def retryOnApiError (e : String) : Bool :=
  let msg := (lowerStr e).toList
  containsSub "429".toList msg || containsSub "resource_exhausted".toList msg ||
    containsSub "503".toList msg

/-- `GOOGLE_FALLBACK_MODELS` (llm_handler.py line 55). -/
def GOOGLE_FALLBACK_MODELS : List String :=
  ["gemini-2.5-flash-lite", "gemini-2.5-flash", "gemini-3-flash", "gemma-3-27b-it"]

/-- `OPENROUTER_FALLBACK_MODELS` (llm_handler.py lines 56-62). -/
def OPENROUTER_FALLBACK_MODELS : List String :=
  ["xiaomi/mimo-v2-flash:free", "google/gemini-2.0-flash-exp:free",
   "mistralai/devstral-2512:free", "qwen/qwen3-coder:free", "google/gemma-3-27b-it:free"]

/-- `models_to_try`: the requested model first, then each fallback model not
already present (llm_handler.py lines 116-121 and 159-163). -/
def buildCascade (modelName : String) (fallbackModels : List String)
    (allow : Bool) : List String :=
  if allow then
    fallbackModels.foldl (fun acc m => if m ∈ acc then acc else acc ++ [m]) [modelName]
  else [modelName]

/-- The key-rotation loop over `fallback_clients` for one model
(llm_handler.py lines 142-148); `idx` is the 1-based number printed in the
descriptor. On total failure, the descriptors in attempt order. -/
def tryFallbacks (m : String) : List Client → Nat → Except (List String) String
  | [], _ => .error []
  | c :: cs, idx =>
    match c m with
    | .ok r => .ok r
    | .error e2 =>
      match tryFallbacks m cs (idx + 1) with
      | .ok r => .ok r
      | .error es =>
        .error (("Model " ++ m ++ " (Fallback " ++ toString idx ++ ") Error: " ++ e2) :: es)

/-- One model's attempts (loop body of `_generate_with_retry`, lines
133-148): the primary key first; on a retryable primary error the fallback
keys in order; a non-retryable primary error skips key rotation. -/
def tryModel (primary : Client) (fallbacks : List Client) (m : String) :
    Except (List String) String :=
  match primary m with
  | .ok r => .ok r
  | .error e =>
    let pdesc := "Model " ++ m ++ " (Primary) Error: " ++ e
    if retryOnApiError e then
      match tryFallbacks m fallbacks 1 with
      | .ok r => .ok r
      | .error es => .error (pdesc :: es)
    else .error [pdesc]

/-- The outer model loop of `_generate_with_retry` (lines 133-151), with the
`errors` list it accumulates. -/
def runCascade (primary : Client) (fallbacks : List Client) :
    List String → Except (List String) String
  | [] => .error []
  | m :: ms =>
    match tryModel primary fallbacks m with
    | .ok r => .ok r
    | .error es =>
      match runCascade primary fallbacks ms with
      | .ok r => .ok r
      | .error es2 => .error (es ++ es2)

/-- `_generate_with_retry` (one tenacity attempt; with a deterministic remote
behavior the up-to-3 outer retries return the same outcome, so the wrapped
call is extensionally this function). -/
def generateWithRetry (modelName : String) (cfg : ClientConfig)
    (fallbackToFlashLite : Bool) : Except String String :=
  match cfg.primary with
  | none => .error "Google API Key not configured."
  | some p =>
    match runCascade p cfg.fallbacks
        (buildCascade modelName GOOGLE_FALLBACK_MODELS fallbackToFlashLite) with
    | .ok r => .ok r
    | .error errs => .error ("All attempts failed. Errors: " ++ String.intercalate "; " errs)

/-! ### The OpenRouter dispatcher (`_generate_with_openrouter`) -/

/-- The error test on line 186: `"429" in msg or "rate limit" in msg.lower()
or "503" in msg`. -/
def orRetryable (e : String) : Bool :=
  containsSub "429".toList e.toList || containsSub "rate limit".toList (lowerStr e).toList ||
    containsSub "503".toList e.toList

/-- The model loop of `_generate_with_openrouter` (lines 166-192): on a
rate-limit/overload error the next model is tried; any other error raises
`OpenRouter Critical Error` at once; exhaustion reports the last three
recorded errors. -/
def orLoop (client : Client) : List String → List String → Except String String
  | [], errors =>
    .error ("All OpenRouter models failed. Errors: " ++
      String.intercalate "; " ((errors.reverse.take 3).reverse))
  | m :: ms, errors =>
    match client m with
    | .ok r => .ok r
    | .error e =>
      if orRetryable e then orLoop client ms (errors ++ ["Model " ++ m ++ " Error: " ++ e])
      else .error ("OpenRouter Critical Error: " ++ e)

/-- `_generate_with_openrouter` (system instruction and user content are
fixed inside the abstracted client). -/
def generateWithOpenrouter (modelName : String) (client : Option Client) :
    Except String String :=
  match client with
  | none => .error "OpenRouter API Key not configured."
  | some c => orLoop c (buildCascade modelName OPENROUTER_FALLBACK_MODELS true) []

/-! ### Cascade construction lemmas -/

theorem dedup_foldl_nodup (fbs : List String) :
    ∀ acc : List String, acc.Nodup →
      (fbs.foldl (fun acc m => if m ∈ acc then acc else acc ++ [m]) acc).Nodup := by
  induction fbs with
  | nil => intro acc h; simpa using h
  | cons m ms ih =>
    intro acc h
    simp only [List.foldl_cons]
    by_cases hm : m ∈ acc
    · simp only [if_pos hm]; exact ih acc h
    · simp only [if_neg hm]
      refine ih _ (List.nodup_append.mpr ⟨h, List.nodup_singleton m, ?_⟩)
      intro x hx
      simp only [List.mem_singleton]
      intro hxm
      exact hm (hxm ▸ hx)

theorem dedup_foldl_prefix (fbs : List String) :
    ∀ acc : List String,
      acc <+: fbs.foldl (fun acc m => if m ∈ acc then acc else acc ++ [m]) acc := by
  induction fbs with
  | nil => intro acc; simp
  | cons m ms ih =>
    intro acc
    simp only [List.foldl_cons]
    by_cases hm : m ∈ acc
    · simpa [hm] using ih acc
    · simp only [if_neg hm]
      exact (List.prefix_append acc [m]).trans (ih (acc ++ [m]))

theorem dedup_foldl_mem (fbs : List String) :
    ∀ acc x, x ∈ fbs.foldl (fun acc m => if m ∈ acc then acc else acc ++ [m]) acc →
      x ∈ acc ∨ x ∈ fbs := by
  induction fbs with
  | nil => intro acc x h; exact Or.inl (by simpa using h)
  | cons m ms ih =>
    intro acc x h
    simp only [List.foldl_cons] at h
    by_cases hm : m ∈ acc
    · rcases ih acc x (by simpa [hm] using h) with h1 | h1
      · exact Or.inl h1
      · exact Or.inr (List.mem_cons_of_mem m h1)
    · rcases ih (acc ++ [m]) x (by simpa [hm] using h) with h1 | h1
      · rcases List.mem_append.mp h1 with h2 | h2
        · exact Or.inl h2
        · exact Or.inr (by simpa using Or.inl (List.mem_singleton.mp h2))
      · exact Or.inr (List.mem_cons_of_mem m h1)

/-- C5: the constructed model cascade puts the requested model first, every
other entry comes from the provider's fallback list, and no model identifier
appears twice — in particular the construction deduplicates even when the
requested model already occurs in the fallback list. -/
theorem cascade_dedup (modelName : String) (fallbackModels : List String) (allow : Bool) :
    (buildCascade modelName fallbackModels allow).Nodup ∧
    (buildCascade modelName fallbackModels allow).head? = some modelName ∧
    ∀ x ∈ buildCascade modelName fallbackModels allow, x = modelName ∨ x ∈ fallbackModels := by
  unfold buildCascade
  by_cases ha : allow
  · simp only [if_pos ha]
    refine ⟨dedup_foldl_nodup fallbackModels [modelName] (List.nodup_singleton _), ?_, ?_⟩
    · rcases dedup_foldl_prefix fallbackModels [modelName] with ⟨t, ht⟩
      rw [← ht]; rfl
    · intro x hx
      rcases dedup_foldl_mem fallbackModels [modelName] x hx with h | h
      · exact Or.inl (List.mem_singleton.mp h)
      · exact Or.inr h
  · simp only [if_neg ha]
    refine ⟨List.nodup_singleton _, rfl, ?_⟩
    intro x hx
    exact Or.inl (List.mem_singleton.mp hx)

/-! ### Concrete clients used as inputs of counterexamples and witnesses -/

/-- A client whose every call succeeds. -/
def okClient : Client := fun _ => .ok "ok-response"

/-- A client whose every call raises a permanent (non-retryable) auth error. -/
def badAuthClient : Client := fun _ => .error "401 unauthorized"

/-- A client whose every call raises a quota (retryable) error. -/
def quotaClient : Client := fun _ => .error "429 quota"

/-- A client whose every call raises a generic failure. -/
def boomClient : Client := fun _ => .error "boom fail"

/-- C1 counterexample: a provider configured with a blank primary key and one
valid fallback key whose client would succeed on every model; dispatch does
not return the fallback's success — it raises the configuration error. -/
theorem blank_primary_dispatch_errors :
    (configureGemini "" ["validKey"] (fun _ => okClient)).primary.isNone = true ∧
    (configureGemini "" ["validKey"] (fun _ => okClient)).fallbacks.length = 1 ∧
    generateWithRetry "gemini-2.5-flash-lite"
        (configureGemini "" ["validKey"] (fun _ => okClient)) true
      = .error "Google API Key not configured." ∧
    okClient "gemini-2.5-flash-lite" = .ok "ok-response" :=
  ⟨rfl, rfl, rfl, rfl⟩

/-- C1 (amended): configuring with an empty or blank primary key yields a
configuration with no primary client, and dispatching against it raises
"Google API Key not configured." at once — the fallback credentials are
never consulted, so primary absence aborts dispatch instead of falling
back. -/
theorem blank_primary_aborts_dispatch (apiKey : String) (fallbackKeys : List String)
    (mk : String → Client) (modelName : String) (allow : Bool)
    (h : pyStrip apiKey.toList = []) :
    (configureGemini apiKey fallbackKeys mk).primary = none ∧
    generateWithRetry modelName (configureGemini apiKey fallbackKeys mk) allow
      = .error "Google API Key not configured." := by
  have h' : pyStrip apiKey.data = [] := h
  have husable : usableKey apiKey = false := by
    simp [usableKey, h']
  have hprim : (configureGemini apiKey fallbackKeys mk).primary = none := by
    simp [configureGemini, husable]
  exact ⟨hprim, by simp [generateWithRetry, hprim]⟩

theorem blank_primary_aborts_dispatch_witness :
    (configureGemini "" ["validKey"] (fun _ => okClient)).primary = none ∧
    generateWithRetry "gemini-2.5-flash-lite"
        (configureGemini "" ["validKey"] (fun _ => okClient)) true
      = .error "Google API Key not configured." :=
  blank_primary_aborts_dispatch "" ["validKey"] (fun _ => okClient)
    "gemini-2.5-flash-lite" true (by decide)

/-- C2 counterexample: the primary key fails with a non-retryable error
("401 unauthorized" carries none of 429/resource_exhausted/503) on the only
model of the cascade, while the fallback credential would succeed on that
model; dispatch reports total failure with only the primary's descriptor —
the fallback credential is never tried for that model. -/
theorem nonretryable_fallbacks_not_tried :
    generateWithRetry "model-x" ⟨some badAuthClient, [okClient]⟩ false
      = .error "All attempts failed. Errors: Model model-x (Primary) Error: 401 unauthorized" ∧
    okClient "model-x" = .ok "ok-response" ∧
    retryOnApiError "401 unauthorized" = false := by
  refine ⟨?_, rfl, by decide⟩
  rfl

/-- C2 (amended): for each model of the cascade the fallback credentials are
tried only when the primary's error is retryable (contains 429,
resource_exhausted or 503); on a non-retryable primary error the dispatcher
records exactly the primary's descriptor for that model — whatever the
fallback clients would do — and moves on to the next model of the cascade. -/
theorem nonretryable_skips_key_rotation (primary : Client) (fallbacks : List Client)
    (m e : String) (ms : List String)
    (h1 : primary m = .error e) (h2 : retryOnApiError e = false) :
    tryModel primary fallbacks m = .error ["Model " ++ m ++ " (Primary) Error: " ++ e] ∧
    runCascade primary fallbacks (m :: ms)
      = (runCascade primary fallbacks ms).mapError
          (fun es => ("Model " ++ m ++ " (Primary) Error: " ++ e) :: es) := by
  have ht : tryModel primary fallbacks m
      = .error ["Model " ++ m ++ " (Primary) Error: " ++ e] := by
    simp [tryModel, h1, h2]
  refine ⟨ht, ?_⟩
  simp only [runCascade, ht]
  cases runCascade primary fallbacks ms <;> simp [Except.mapError]

theorem nonretryable_skips_key_rotation_witness :
    tryModel badAuthClient [okClient] "model-x"
      = .error ["Model " ++ "model-x" ++ " (Primary) Error: " ++ "401 unauthorized"] ∧
    runCascade badAuthClient [okClient] ["model-x"]
      = (runCascade badAuthClient [okClient] []).mapError
          (fun es => ("Model " ++ "model-x" ++ " (Primary) Error: " ++ "401 unauthorized") :: es) :=
  nonretryable_skips_key_rotation badAuthClient [okClient] "model-x" "401 unauthorized" []
    rfl (by decide)

/-- An OpenRouter client that fails with a permanent auth error on the
requested model but would succeed on every fallback model. -/
def orAuthFailClient : Client :=
  fun m => if m = "model-a" then .error "401 auth failed" else .ok "hi"

/-- C3 counterexample: in the OpenRouter dispatcher a non-rate-limit error on
the first model raises "OpenRouter Critical Error" at once, although the very
next (credential, model) pair of the cascade would succeed — an error is
raised mid-cascade without exhausting the model×credential combinations. -/
theorem openrouter_error_raised_mid_cascade :
    generateWithOpenrouter "model-a" (some orAuthFailClient)
      = .error "OpenRouter Critical Error: 401 auth failed" ∧
    orAuthFailClient "xiaomi/mimo-v2-flash:free" = .ok "hi" ∧
    orRetryable "401 auth failed" = false := by
  refine ⟨?_, rfl, by decide⟩
  rfl

/-- C3 (amended): the Google dispatcher raises no error mid-cascade — it
reports failure exactly when every model of the cascade fails (each model's
attempts following the key-rotation rule, which skips fallback keys on a
non-retryable primary error) — whereas the OpenRouter dispatcher aborts the
remaining cascade at once with "OpenRouter Critical Error" whenever an
attempt fails with anything other than a rate-limit/overload error. -/
theorem failure_only_on_exhaustion (primary : Client) (fallbacks : List Client)
    (ms : List String) (c : Client) (m e : String) (rest errs : List String)
    (hc : c m = .error e) (hnr : orRetryable e = false) :
    ((∃ es, runCascade primary fallbacks ms = .error es) ↔
      ∀ x ∈ ms, ∃ es, tryModel primary fallbacks x = .error es) ∧
    orLoop c (m :: rest) errs = .error ("OpenRouter Critical Error: " ++ e) := by
  constructor
  · induction ms with
    | nil => simp [runCascade]
    | cons m' ms' ih =>
      simp only [runCascade]
      cases hm' : tryModel primary fallbacks m' with
      | ok r =>
        simp only [List.mem_cons]
        constructor
        · rintro ⟨es, h⟩; cases h
        · intro h
          rcases h m' (Or.inl rfl) with ⟨es, hes⟩
          rw [hm'] at hes; cases hes
      | error es =>
        cases hrest : runCascade primary fallbacks ms' with
        | ok r =>
          constructor
          · rintro ⟨es2, h⟩; cases h
          · intro h
            have : ∃ es2, runCascade primary fallbacks ms' = .error es2 := by
              exact ih.mpr (fun x hx => h x (List.mem_cons_of_mem m' hx))
            rcases this with ⟨es2, hes2⟩
            rw [hrest] at hes2; cases hes2
        | error es2 =>
          constructor
          · intro _
            intro x hx
            rcases List.mem_cons.mp hx with rfl | hx'
            · exact ⟨es, hm'⟩
            · exact ih.mp ⟨es2, hrest⟩ x hx'
          · intro _; exact ⟨es ++ es2, rfl⟩
  · simp [orLoop, hc, hnr]

theorem failure_only_on_exhaustion_witness :
    ((∃ es, runCascade badAuthClient [okClient] ["model-x"] = .error es) ↔
      ∀ x ∈ ["model-x"], ∃ es, tryModel badAuthClient [okClient] x = .error es) ∧
    orLoop orAuthFailClient ["model-a"] [] = .error ("OpenRouter Critical Error: " ++ "401 auth failed") :=
  failure_only_on_exhaustion badAuthClient [okClient] ["model-x"] orAuthFailClient
    "model-a" "401 auth failed" [] [] rfl (by decide)

/-! ### C4: one error descriptor per attempted (credential, model) pair -/

/-- The descriptor list a totally failing dispatch accumulates, in attempt
order: per model of the cascade, the primary's descriptor followed — when the
primary's error is retryable — by one descriptor per fallback credential
(numbered from 1, as `enumerate` prints `idx+1`). -/
def allFailDescs (primaryErr : String → String) (errOf : Client → String → String)
    (fallbacks : List Client) (ms : List String) : List String :=
  ms.flatMap fun m =>
    ("Model " ++ m ++ " (Primary) Error: " ++ primaryErr m) ::
      (if retryOnApiError (primaryErr m) then
        (List.enumFrom 1 fallbacks).map fun p =>
          "Model " ++ m ++ " (Fallback " ++ toString p.1 ++ ") Error: " ++ errOf p.2 m
      else [])

theorem tryFallbacks_all_fail (m : String) (errOf : Client → String → String) :
    ∀ (fbs : List Client), (∀ cl ∈ fbs, cl m = .error (errOf cl m)) → ∀ k,
      tryFallbacks m fbs k = .error ((List.enumFrom k fbs).map fun p =>
        "Model " ++ m ++ " (Fallback " ++ toString p.1 ++ ") Error: " ++ errOf p.2 m) := by
  intro fbs
  induction fbs with
  | nil => intro _ k; simp [tryFallbacks]
  | cons c cs ih =>
    intro h k
    have hc : c m = .error (errOf c m) := h c (by simp)
    have hrest := ih (fun cl hcl => h cl (List.mem_cons_of_mem c hcl)) (k + 1)
    simp [tryFallbacks, hc, hrest, List.enumFrom]

theorem tryModel_all_fail (primary : Client) (fallbacks : List Client) (m : String)
    (perr : String → String) (errOf : Client → String → String)
    (hp : primary m = .error (perr m))
    (hf : ∀ cl ∈ fallbacks, cl m = .error (errOf cl m)) :
    tryModel primary fallbacks m = .error
      (("Model " ++ m ++ " (Primary) Error: " ++ perr m) ::
        (if retryOnApiError (perr m) then
          (List.enumFrom 1 fallbacks).map fun p =>
            "Model " ++ m ++ " (Fallback " ++ toString p.1 ++ ") Error: " ++ errOf p.2 m
        else [])) := by
  by_cases hr : retryOnApiError (perr m)
  · simp [tryModel, hp, hr, tryFallbacks_all_fail m errOf fallbacks hf 1]
  · simp [tryModel, hp, hr]

/-- C4: when the primary credential fails on every model and every fallback
credential fails on every model, the dispatcher's cascade returns the failure
descriptor list `allFailDescs` — one descriptor per attempted (credential,
model) pair, in attempt order — whose length is the number of attempted
pairs: for each model, one primary attempt plus, exactly when the primary's
error was retryable, one attempt per fallback credential. -/
theorem descriptor_per_attempted_pair (primary : Client) (fallbacks : List Client)
    (perr : String → String) (errOf : Client → String → String) (ms : List String)
    (hp : ∀ m, primary m = .error (perr m))
    (hf : ∀ cl ∈ fallbacks, ∀ m, cl m = .error (errOf cl m)) :
    runCascade primary fallbacks ms = .error (allFailDescs perr errOf fallbacks ms) ∧
    (allFailDescs perr errOf fallbacks ms).length
      = (ms.map fun m =>
          1 + if retryOnApiError (perr m) then fallbacks.length else 0).sum := by
  constructor
  · induction ms with
    | nil => simp [runCascade, allFailDescs]
    | cons m ms' ih =>
      have htm := tryModel_all_fail primary fallbacks m perr errOf (hp m)
        (fun cl hcl => hf cl hcl m)
      simp [runCascade, htm, ih, allFailDescs]
  · simp only [allFailDescs, List.length_flatMap]
    congr 1
    apply List.map_congr_left
    intro m _
    simp only [Function.comp_apply, List.length_cons]
    by_cases hr : retryOnApiError (perr m)
    · simp [hr, Nat.add_comm]
    · simp [hr, Nat.add_comm]

theorem descriptor_per_attempted_pair_witness :
    runCascade quotaClient [boomClient] ["model-a", "model-b"]
      = .error (allFailDescs (fun _ => "429 quota") (fun _ _ => "boom fail")
          [boomClient] ["model-a", "model-b"]) ∧
    (allFailDescs (fun _ => "429 quota") (fun _ _ => "boom fail")
        [boomClient] ["model-a", "model-b"]).length
      = ((["model-a", "model-b"]).map fun m =>
          1 + if retryOnApiError ((fun _ => "429 quota") m) then
            ([boomClient] : List Client).length else 0).sum :=
  descriptor_per_attempted_pair quotaClient [boomClient]
    (fun _ => "429 quota") (fun _ _ => "boom fail") ["model-a", "model-b"]
    (fun _ => rfl)
    (fun cl hcl m => by rw [List.mem_singleton.mp hcl]; rfl)

/-! ### The vector store (`src/utils/rag.py`)

SQLite I/O is modelled as reliable, and the float32/JSON serialization of a
row round-trips as the identity, so a persisted row carries the same fields
as a cached chunk. A decisive feature of the source as it stands:
`add_chunks` and `search` call
`get_embedding(..., google_client=google_client, zai_client=zai_client)`
(rag.py lines 113, 121 and 168), but `llm_handler.get_embedding` (line 255)
takes no `zai_client` parameter and no keyword catch-all, so Python raises
`TypeError` at the call site, before the function body runs, and no handler
in `add_chunks` or `search` catches it. The model keeps this error path
explicit instead of assuming a callable embedding. -/

/-- `MAX_VECTOR_STORE_CHUNKS` (llm_handler.py line 70). -/
def MAX_VECTOR_STORE_CHUNKS : Nat := 5000

/-- `MIN_CHUNK_LENGTH` (llm_handler.py line 71). -/
def MIN_CHUNK_LENGTH : Nat := 50

/-- A stored chunk: text, opaque serialized metadata, embedding vector. -/
structure Chunk where
  text : String
  metadata : String
  embedding : List ℝ

/-- The store's state: the in-memory cache `self.chunks` and the rows of the
`chunks` table. -/
structure Store where
  chunks : List Chunk
  db : List Chunk

/-- The exception every `get_embedding(..., zai_client=...)` call site of
rag.py raises, rendered as a string. -/
def zaiKeywordError : String :=
  "TypeError: get_embedding() got an unexpected keyword argument 'zai_client'"

/-- `SQLiteVectorStore.add_chunks` (rag.py lines 84-161) as the source
stands. The capacity guard (lines 90-96) and the `MIN_CHUNK_LENGTH` filter
(lines 102-104) run first, on locals only. When no valid text remains,
`range(0, 0, 100)` yields no batch iteration, `new_entries` stays empty, the
`if new_entries:` insert is skipped and the call completes with the store
untouched. When at least one text passed the filter, the first batch's
`get_embedding(batch_texts, google_client=..., zai_client=...)` call (line
113) raises the `TypeError` before anything is appended to the cache or
inserted into the table, so the store is unchanged on that path too.
(`metadata_list` is defaulted on lines 86-87 and sliced on line 96, but it
is only read after an embedding call returns, which never happens, so it
cannot influence the outcome; the `google_client`/`zai_client` handles are
opaque arguments of the raising call.) -/
def addChunks (st : Store) (texts : List String) (metas : List String) :
    Except String Store :=
  if MAX_VECTOR_STORE_CHUNKS < st.chunks.length + texts.length then
    let remaining := MAX_VECTOR_STORE_CHUNKS - st.chunks.length
    if remaining = 0 then .ok st
    else if ((texts.take remaining).filter fun t =>
        MIN_CHUNK_LENGTH ≤ t.length).isEmpty = true then .ok st
    else .error zaiKeywordError
  else
    if (texts.filter fun t => MIN_CHUNK_LENGTH ≤ t.length).isEmpty = true then .ok st
    else .error zaiKeywordError

/-- `SQLiteVectorStore.__init__` + `_load_cache` against an existing
database file: every persisted row is parsed back into the in-memory cache
(rows are well-typed in the model, so none is skipped as corrupted). -/
def openStore (rows : List Chunk) : Store :=
  { chunks := rows, db := rows }

/-- `SQLiteVectorStore.search` (rag.py lines 163-187) as the source stands:
the empty-store guard (line 165) returns `[]`; for a non-empty store the
query embedding call (line 168) raises the `TypeError`, so the
`q_norm == 0` guard (line 175) and the vectorized cosine ranking below it
are unreachable. -/
def search (st : Store) (query : String) (k : ℕ) : Except String (List Chunk) :=
  if st.chunks.isEmpty = true then .ok []
  else .error zaiKeywordError

/-- Every `add_chunks` call either completes returning the store unchanged
or aborts with the `zai_client` `TypeError`. -/
theorem addChunks_cases (st : Store) (texts metas : List String) :
    addChunks st texts metas = .ok st ∨
      addChunks st texts metas = .error zaiKeywordError := by
  by_cases h1 : MAX_VECTOR_STORE_CHUNKS < st.chunks.length + texts.length
  · by_cases h2 : MAX_VECTOR_STORE_CHUNKS - st.chunks.length = 0
    · exact Or.inl (by simp [addChunks, h1, h2])
    · by_cases h3 : ((texts.take (MAX_VECTOR_STORE_CHUNKS - st.chunks.length)).filter fun t =>
          MIN_CHUNK_LENGTH ≤ t.length).isEmpty = true
      · exact Or.inl (by simp [addChunks, h1, h2, h3])
      · exact Or.inr (by simp [addChunks, h1, h2, h3])
  · by_cases h3 : (texts.filter fun t => MIN_CHUNK_LENGTH ≤ t.length).isEmpty = true
    · exact Or.inl (by simp [addChunks, h1, h3])
    · exact Or.inr (by simp [addChunks, h1, h3])

theorem addChunks_ok_eq {st st' : Store} {texts metas : List String}
    (h : addChunks st texts metas = .ok st') : st' = st := by
  rcases addChunks_cases st texts metas with hc | hc
  · rw [hc] at h
    injection h with he
    exact he.symm
  · rw [hc] at h
    exact Except.noConfusion h

/-- C6: every `add_chunks` call preserves the store invariant. As the
source stands no call can store a chunk: a call either completes with the
store exactly as it was (capacity exhausted, or no text passed the
`MIN_CHUNK_LENGTH` filter), or aborts with the `zai_client` `TypeError`
raised before anything is appended or inserted. In particular the chunk
count never comes to exceed the 5000 ceiling, no existing chunk is ever
evicted, and a text shorter than the minimum is never added even when
explicitly passed. -/
theorem addChunks_invariant (st : Store) (texts metas : List String)
    (hcap : st.chunks.length ≤ MAX_VECTOR_STORE_CHUNKS) :
    (addChunks st texts metas = .ok st ∨
      addChunks st texts metas = .error zaiKeywordError) ∧
    (∀ st', addChunks st texts metas = .ok st' → st' = st) ∧
    ∀ st', addChunks st texts metas = .ok st' →
      st'.chunks.length ≤ MAX_VECTOR_STORE_CHUNKS ∧
      st.chunks <+: st'.chunks ∧
      ∀ c ∈ st'.chunks, c ∈ st.chunks ∨ MIN_CHUNK_LENGTH ≤ c.text.length := by
  refine ⟨addChunks_cases st texts metas, fun st' h => addChunks_ok_eq h, ?_⟩
  intro st' h
  rw [addChunks_ok_eq h]
  exact ⟨hcap, List.prefix_refl _, fun c hc => Or.inl hc⟩

theorem addChunks_invariant_witness :
    (addChunks ⟨[], []⟩ ["hi"] [] = .ok ⟨[], []⟩ ∨
      addChunks ⟨[], []⟩ ["hi"] [] = .error zaiKeywordError) ∧
    (∀ st', addChunks ⟨[], []⟩ ["hi"] [] = .ok st' → st' = (⟨[], []⟩ : Store)) ∧
    ∀ st', addChunks ⟨[], []⟩ ["hi"] [] = .ok st' →
      st'.chunks.length ≤ MAX_VECTOR_STORE_CHUNKS ∧
      (⟨[], []⟩ : Store).chunks <+: st'.chunks ∧
      ∀ c ∈ st'.chunks, c ∈ (⟨[], []⟩ : Store).chunks ∨ MIN_CHUNK_LENGTH ≤ c.text.length :=
  addChunks_invariant ⟨[], []⟩ ["hi"] [] (by decide)

/-- C7: after every completed `add_chunks` call the in-memory mirror and the
durable rows hold the same accepted set. As the source stands a completed
call accepts nothing and leaves both exactly as they were — a call that
would accept a chunk aborts with the `zai_client` `TypeError` before
touching either — so equality of cache and rows is preserved, and
re-opening a store against the same durable rows reconstructs a mirror
equal to the cache, in particular of equal length. -/
theorem addChunks_mirror_persistence (st : Store) (texts metas : List String)
    (h : st.db = st.chunks) :
    ∀ st', addChunks st texts metas = .ok st' →
      st'.db = st'.chunks ∧
      (openStore st'.db).chunks = st'.chunks ∧
      (openStore st'.db).chunks.length = st'.chunks.length := by
  intro st' hok
  rw [addChunks_ok_eq hok]
  exact ⟨h, h, congrArg List.length h⟩

theorem addChunks_mirror_persistence_witness :
    (⟨[], []⟩ : Store).db = (⟨[], []⟩ : Store).chunks ∧
    (openStore (⟨[], []⟩ : Store).db).chunks = (⟨[], []⟩ : Store).chunks ∧
    (openStore (⟨[], []⟩ : Store).db).chunks.length = (⟨[], []⟩ : Store).chunks.length :=
  addChunks_mirror_persistence ⟨[], []⟩ ["hi"] [] rfl ⟨[], []⟩ rfl

/-- C8: the code evaluated at a failing input. A store holding one persisted
chunk, the query "mitochondria", k = 1: the claim says `search` embeds the
query and returns the ranked top-k — or `[]` on embedding failure — without
raising, but the call raises the `zai_client` `TypeError` of rag.py line
168. For every non-empty store the zero-norm guard and the cosine ranking
below line 168 are unreachable dead code; the empty-store guard of line 165
is the only returning path. -/
theorem search_raises_on_nonempty_store :
    search ⟨[⟨"a chunk about mitochondria", "\x7b\x7d", []⟩],
        [⟨"a chunk about mitochondria", "\x7b\x7d", []⟩]⟩ "mitochondria" 1
      = .error zaiKeywordError ∧
    search ⟨[], []⟩ "mitochondria" 1 = .ok [] :=
  ⟨rfl, rfl⟩

/-! ### C9: the response cleanup in `process_chunk` (lines 361-383) -/

/-- The line breaks of `str.splitlines()` modelled: `\n`, `\r` (with `\r\n`
as one break), `\v`, `\f`; the rarer breaks Python also recognizes
(`\x1c`-`\x1e`, `\x85`, U+2028/29) are outside the model. -/
def isLineBreak (c : Char) : Bool :=
  c = '\n' || c = '\r' || c = '\x0b' || c = '\x0c'

/-- Collapses each `\r\n` pair into one `\n`, so that the single-character
splitter below realizes Python's treatment of `\r\n` as one break. -/
def collapseCRLF : List Char → List Char
  | [] => []
  | '\r' :: '\n' :: rest => '\n' :: collapseCRLF rest
  | c :: rest => c :: collapseCRLF rest

def splitlinesGo : List Char → List Char → List (List Char)
  | [], acc => [acc.reverse]
  | c :: rest, acc =>
    if isLineBreak c = true then
      if rest.isEmpty = true then [acc.reverse] else acc.reverse :: splitlinesGo rest []
    else splitlinesGo rest (c :: acc)

/-- Python `str.splitlines()`: no trailing empty line after a final break,
and the empty string yields no lines. -/
def pySplitlines (l : List Char) : List (List Char) :=
  if l.isEmpty = true then [] else splitlinesGo (collapseCRLF l) []

/-- `"\n".join(clean_lines)`. -/
def joinLines : List (List Char) → List Char
  | [] => []
  | [l] => l
  | l :: l2 :: ls => l ++ '\n' :: joinLines (l2 :: ls)

/-- The per-line filter (lines 373-378): strip the line, skip it when empty,
keep it when it holds a double quote and a tab or pipe. -/
def keptLine (rawLine : List Char) : Option (List Char) :=
  let line := pyStrip rawLine
  if line.isEmpty = true then none
  else if line.contains '\"' && (line.contains '\t' || line.contains '|') then some line
  else none

def cleanLines (text : List Char) : List (List Char) :=
  (pySplitlines text).filterMap keptLine

/-- The list starts with three backticks. -/
def isTicks : List Char → Bool
  | '`' :: '`' :: '`' :: _ => true
  | _ => false

/-- Index of the first occurrence of three backticks, if any. -/
def findTicks : List Char → Option ℕ
  | [] => none
  | c :: tl => if isTicks (c :: tl) = true then some 0 else (findTicks tl).map (· + 1)

/-- Length consumed by the optional case-insensitive `(?:csv|tsv)?` tag. -/
def fenceTagLen (l : List Char) : ℕ :=
  match l with
  | c1 :: c2 :: c3 :: _ =>
    if (c1.toLower = 'c' || c1.toLower = 't') && c2.toLower = 's' && c3.toLower = 'v'
    then 3 else 0
  | _ => 0

/-- The leftmost match of the fenced-block pattern
(`re.search` of three backticks, an optional case-insensitive csv/tsv tag,
`\s*`, a lazy group, three backticks, with DOTALL): scanning left to right,
at the first opening fence whose remainder — past the optional tag and the
greedy whitespace run — still holds a closing fence, the lazily captured
group runs up to that closing fence. Tag letters and whitespace cannot
start a fence, so consuming them never skips a closing candidate; this
matches the regex engine's backtracking. -/
def fencedSearch : List Char → Option (List Char)
  | [] => none
  | c :: tl =>
    if isTicks (c :: tl) = true then
      let rest := tl.drop 2
      let afterTag := rest.drop (fenceTagLen rest)
      let content := afterTag.dropWhile isPySpace
      match findTicks content with
      | some n => some (content.take n)
      | none => fencedSearch tl
    else fencedSearch tl

/-- Lines 362-368: strip the response; when it holds a fence, search for a
fenced block and prefer its (stripped) contents when found. -/
def afterFence (raw : List Char) : List Char :=
  let text := pyStrip raw
  if containsSub "```".toList text = true then
    match fencedSearch text with
    | some inner => pyStrip inner
    | none => text
  else text

/-- Lines 361-383 of `process_chunk`: fence stripping, then the line filter —
the filtered lines are joined only when at least one line was kept
(`if clean_lines:`); otherwise the text is returned as it stood. -/
def normalizeResp (raw : List Char) : List Char :=
  let text := afterFence raw
  let cls := cleanLines text
  if cls.isEmpty = true then text else joinLines cls

/-- C9 counterexample: the raw output "note" — a single stray commentary
line with neither a field quote nor a delimiter, and no fence. The claim's
filter discards every such line (yielding the empty text), but the code's
`if clean_lines:` keeps the text unchanged when no line passes, so the
commentary line survives normalization. -/
theorem stray_commentary_survives :
    normalizeResp "note".toList = "note".toList ∧
    cleanLines (afterFence "note".toList) = [] ∧
    keptLine "note".toList = none := by
  refine ⟨?_, ?_, ?_⟩ <;> decide

theorem mem_pyStrip (l : List Char) : ∀ x ∈ pyStrip l, x ∈ l := by
  intro x hx
  simp only [pyStrip, List.mem_reverse] at hx
  have h1 := (List.dropWhile_sublist (l := (l.dropWhile isPySpace).reverse) isPySpace).subset hx
  rw [List.mem_reverse] at h1
  exact (List.dropWhile_sublist isPySpace).subset h1

theorem splitlinesGo_no_break :
    ∀ (l acc : List Char), (∀ c ∈ acc, isLineBreak c = false) →
      ∀ line ∈ splitlinesGo l acc, ∀ c ∈ line, isLineBreak c = false := by
  intro l
  induction l with
  | nil =>
    intro acc hacc line hline c hc
    simp only [splitlinesGo, List.mem_singleton] at hline
    subst hline
    exact hacc c (List.mem_reverse.mp hc)
  | cons d rest ih =>
    intro acc hacc line hline c hc
    by_cases hd : isLineBreak d = true
    · simp only [splitlinesGo, hd, if_true] at hline
      by_cases he : rest.isEmpty = true
      · simp only [he, if_true, List.mem_singleton] at hline
        subst hline
        exact hacc c (List.mem_reverse.mp hc)
      · simp only [he, Bool.false_eq_true, if_false, List.mem_cons] at hline
        rcases hline with rfl | hline'
        · exact hacc c (List.mem_reverse.mp hc)
        · exact ih [] (by simp) line hline' c hc
    · simp only [splitlinesGo, hd, Bool.false_eq_true, if_false] at hline
      refine ih (d :: acc) ?_ line hline c hc
      intro x hx
      rcases List.mem_cons.mp hx with rfl | hx'
      · exact eq_false_of_ne_true hd
      · exact hacc x hx'

theorem collapseCRLF_eq_self : ∀ (l : List Char), (∀ c ∈ l, c ≠ '\r') →
    collapseCRLF l = l := by
  intro l
  induction l with
  | nil => intro _; rfl
  | cons c rest ih =>
    intro h
    have hc : c ≠ '\r' := h c (by simp)
    rw [collapseCRLF.eq_def]
    split
    · next heq => exact absurd heq (List.cons_ne_nil c rest)
    · next heq =>
      exact absurd (by injection heq) hc
    · next c' rest' _ heq =>
      injection heq with h1 h2
      subst h1
      subst h2
      rw [ih (fun x hx => h x (List.mem_cons_of_mem c hx))]

theorem splitlinesGo_all_plain (l : List Char) :
    ∀ acc, (∀ c ∈ l, isLineBreak c = false) →
      splitlinesGo l acc = [acc.reverse ++ l] := by
  induction l with
  | nil => intro acc _; simp [splitlinesGo]
  | cons c rest ih =>
    intro acc h
    have hc : isLineBreak c = false := h c (by simp)
    rw [splitlinesGo]
    simp only [hc, Bool.false_eq_true, if_false]
    rw [ih (c :: acc) (fun x hx => h x (List.mem_cons_of_mem c hx))]
    simp

theorem no_break_no_cr {l : List Char} (h : ∀ c ∈ l, isLineBreak c = false) :
    ∀ c ∈ l, c ≠ '\r' := by
  intro c hc he
  have := h c hc
  rw [he] at this
  simp [isLineBreak] at this

theorem pySplitlines_plain (l : List Char) (hne : l ≠ [])
    (h : ∀ c ∈ l, isLineBreak c = false) : pySplitlines l = [l] := by
  rw [pySplitlines, if_neg (by simpa using hne), collapseCRLF_eq_self l (no_break_no_cr h)]
  simpa using splitlinesGo_all_plain l [] h

theorem splitlinesGo_append_break (t : List Char) (hne : t ≠ []) :
    ∀ (l acc : List Char), (∀ c ∈ l, isLineBreak c = false) →
      splitlinesGo (l ++ '\n' :: t) acc = (acc.reverse ++ l) :: splitlinesGo t [] := by
  intro l
  induction l with
  | nil =>
    intro acc _
    rw [List.nil_append, splitlinesGo]
    have hbr : isLineBreak '\n' = true := by decide
    have hte : t.isEmpty = false := by simpa [List.isEmpty_iff] using hne
    simp [hbr, hte]
  | cons c rest ih =>
    intro acc h
    have hc : isLineBreak c = false := h c (by simp)
    rw [List.cons_append, splitlinesGo]
    simp only [hc, Bool.false_eq_true, if_false]
    rw [ih (c :: acc) (fun x hx => h x (List.mem_cons_of_mem c hx))]
    simp

theorem joinLines_ne_nil : ∀ (cls : List (List Char)), cls ≠ [] →
    (∀ l ∈ cls, l ≠ []) → joinLines cls ≠ [] := by
  intro cls hne hl
  match cls with
  | [] => exact absurd rfl hne
  | [l] => simpa [joinLines] using hl l (by simp)
  | l :: l2 :: ls =>
    rw [joinLines]
    rcases l with _ | ⟨c, l'⟩ <;> simp

theorem mem_joinLines : ∀ (cls : List (List Char)), ∀ x ∈ joinLines cls,
    (∃ l ∈ cls, x ∈ l) ∨ x = '\n' := by
  intro cls
  match cls with
  | [] => simp [joinLines]
  | [l] =>
    intro x hx
    exact Or.inl ⟨l, by simp, by simpa [joinLines] using hx⟩
  | l :: l2 :: ls =>
    intro x hx
    rw [joinLines] at hx
    rcases List.mem_append.mp hx with h | h
    · exact Or.inl ⟨l, by simp, h⟩
    · rcases List.mem_cons.mp h with rfl | h'
      · exact Or.inr rfl
      · rcases mem_joinLines (l2 :: ls) x h' with ⟨l3, hl3, hxl3⟩ | h''
        · exact Or.inl ⟨l3, List.mem_cons_of_mem l hl3, hxl3⟩
        · exact Or.inr h''

theorem pySplitlines_joinLines :
    ∀ (cls : List (List Char)), cls ≠ [] →
      (∀ l ∈ cls, l ≠ [] ∧ ∀ c ∈ l, isLineBreak c = false) →
      pySplitlines (joinLines cls) = cls := by
  intro cls
  match cls with
  | [] => intro hne _; exact absurd rfl hne
  | [l] =>
    intro _ h
    rw [joinLines]
    exact pySplitlines_plain l (h l (by simp)).1 (h l (by simp)).2
  | l :: l2 :: ls =>
    intro _ h
    have hnocr : ∀ c ∈ joinLines (l :: l2 :: ls), c ≠ '\r' := by
      intro c hc
      rcases mem_joinLines (l :: l2 :: ls) c hc with ⟨l3, hl3, hcl3⟩ | rfl
      · exact no_break_no_cr (h l3 hl3).2 c hcl3
      · decide
    have htail : joinLines (l2 :: ls) ≠ [] :=
      joinLines_ne_nil (l2 :: ls) (by simp)
        (fun x hx => (h x (List.mem_cons_of_mem l hx)).1)
    have hne2 : joinLines (l :: l2 :: ls) ≠ [] :=
      joinLines_ne_nil (l :: l2 :: ls) (by simp) (fun x hx => (h x hx).1)
    rw [pySplitlines, if_neg (by simpa using hne2),
      collapseCRLF_eq_self _ hnocr, joinLines,
      splitlinesGo_append_break (joinLines (l2 :: ls)) htail l [] (h l (by simp)).2]
    have hrec := pySplitlines_joinLines (l2 :: ls) (by simp)
      (fun x hx => h x (List.mem_cons_of_mem l hx))
    have hnocr2 : ∀ c ∈ joinLines (l2 :: ls), c ≠ '\r' := by
      intro c hc
      apply hnocr c
      rw [joinLines]
      exact List.mem_append.mpr (Or.inr (List.mem_cons_of_mem '\n' hc))
    rw [pySplitlines, if_neg (by simpa using htail),
      collapseCRLF_eq_self _ hnocr2] at hrec
    rw [hrec]
    simp

theorem keptLine_some {rawLine line : List Char} (h : keptLine rawLine = some line) :
    line = pyStrip rawLine ∧ line.isEmpty = false ∧ line.contains '\"' = true ∧
      (line.contains '\t' || line.contains '|') = true := by
  simp only [keptLine] at h
  by_cases h1 : (pyStrip rawLine).isEmpty = true
  · rw [if_pos h1] at h
    cases h
  · rw [if_neg h1] at h
    by_cases h2 : ((pyStrip rawLine).contains '\"' &&
        ((pyStrip rawLine).contains '\t' || (pyStrip rawLine).contains '|')) = true
    · rw [if_pos h2] at h
      have hline : pyStrip rawLine = line := Option.some_inj.mp h
      subst hline
      rcases Bool.and_eq_true_iff.mp h2 with ⟨ha, hb⟩
      exact ⟨rfl, eq_false_of_ne_true h1, ha, hb⟩
    · rw [if_neg h2] at h
      cases h

theorem cleanLines_elem {text line : List Char} (h : line ∈ cleanLines text) :
    line ≠ [] ∧ (∀ c ∈ line, isLineBreak c = false) ∧
      line.contains '\"' = true ∧ (line.contains '\t' || line.contains '|') = true := by
  rcases List.mem_filterMap.mp h with ⟨rawLine, hraw, hkept⟩
  rcases keptLine_some hkept with ⟨heq, hne, hq, hd⟩
  refine ⟨by simpa [List.isEmpty_iff] using hne, ?_, hq, hd⟩
  intro c hc
  have hcr : c ∈ rawLine := mem_pyStrip rawLine c (heq ▸ hc)
  by_cases htext : text.isEmpty = true
  · rw [pySplitlines] at hraw
    simp [htext] at hraw
  · rw [pySplitlines, if_neg htext] at hraw
    exact splitlinesGo_no_break (collapseCRLF text) [] (by simp) rawLine hraw c hcr

/-- C9 (amended): when at least one line of the (fence-stripped) response
passes the structural filter, normalization returns exactly the passing
lines — each holding a field quote and a tab-or-pipe delimiter — joined by
newlines, discarding every stray commentary line; when no line passes, the
fence-stripped text is returned unchanged (shown by the counterexample)
rather than emptied. -/
theorem normalize_keeps_exactly_valid_lines (raw : List Char)
    (h : cleanLines (afterFence raw) ≠ []) :
    pySplitlines (normalizeResp raw) = cleanLines (afterFence raw) ∧
    ∀ line ∈ pySplitlines (normalizeResp raw),
      line.contains '\"' = true ∧ (line.contains '\t' || line.contains '|') = true := by
  have hnorm : normalizeResp raw = joinLines (cleanLines (afterFence raw)) := by
    rw [normalizeResp, if_neg (by simpa [List.isEmpty_iff] using h)]
  have hsplit : pySplitlines (normalizeResp raw) = cleanLines (afterFence raw) := by
    rw [hnorm]
    exact pySplitlines_joinLines (cleanLines (afterFence raw)) h
      (fun l hl => ⟨(cleanLines_elem hl).1, (cleanLines_elem hl).2.1⟩)
  refine ⟨hsplit, ?_⟩
  intro line hline
  rw [hsplit] at hline
  exact ⟨(cleanLines_elem hline).2.2.1, (cleanLines_elem hline).2.2.2⟩

theorem normalize_keeps_exactly_valid_lines_witness :
    pySplitlines (normalizeResp ("\"a\"|\"b\"\nnote").toList)
        = cleanLines (afterFence ("\"a\"|\"b\"\nnote").toList) ∧
    ∀ line ∈ pySplitlines (normalizeResp ("\"a\"|\"b\"\nnote").toList),
      line.contains '\"' = true ∧ (line.contains '\t' || line.contains '|') = true :=
  normalize_keeps_exactly_valid_lines ("\"a\"|\"b\"\nnote").toList (by decide)

/-! ### C10: `process_chunk` (lines 347-385) -/

/-- The string-level cleanup applied to a successful generation. -/
def normalizeStr (s : String) : String :=
  String.mk (normalizeResp s.toList)

/-- `process_chunk`: the whole body sits in one `try`; an unrecognized
provider returns "Error: Invalid Provider Selected" from inside it, and
every exception raised by the dispatchers is caught and returned as an
"Error processing chunk:" string. -/
def processChunk (provider modelName : String) (googleCfg : ClientConfig)
    (orClient : Option Client) : String :=
  if provider = "google" then
    match generateWithRetry modelName googleCfg true with
    | .ok t => normalizeStr t
    | .error e => "Error processing chunk: " ++ e
  else if provider = "openrouter" then
    match generateWithOpenrouter modelName orClient with
    | .ok t => normalizeStr t
    | .error e => "Error processing chunk: " ++ e
  else "Error: Invalid Provider Selected"

/-- C10: `process_chunk` always returns a string and never re-raises — an
unrecognized provider yields "Error: Invalid Provider Selected", any
exception escaping a dispatcher (total exhaustion included) comes back as a
string prefixed "Error processing chunk: ", and a successful generation
comes back normalized. -/
theorem processChunk_never_raises (provider modelName : String)
    (googleCfg : ClientConfig) (orClient : Option Client) :
    (provider ≠ "google" → provider ≠ "openrouter" →
      processChunk provider modelName googleCfg orClient
        = "Error: Invalid Provider Selected") ∧
    (∀ e, provider = "google" → generateWithRetry modelName googleCfg true = .error e →
      processChunk provider modelName googleCfg orClient
        = "Error processing chunk: " ++ e) ∧
    (∀ e, provider = "openrouter" → generateWithOpenrouter modelName orClient = .error e →
      processChunk provider modelName googleCfg orClient
        = "Error processing chunk: " ++ e) ∧
    (∀ t, provider = "google" → generateWithRetry modelName googleCfg true = .ok t →
      processChunk provider modelName googleCfg orClient = normalizeStr t) ∧
    (∀ t, provider = "openrouter" → generateWithOpenrouter modelName orClient = .ok t →
      processChunk provider modelName googleCfg orClient = normalizeStr t) := by
  refine ⟨?_, ?_, ?_, ?_, ?_⟩
  · intro h1 h2
    simp [processChunk, h1, h2]
  · intro e hp hg
    subst hp
    simp [processChunk, hg]
  · intro e hp hg
    subst hp
    have : ("openrouter" : String) ≠ "google" := by decide
    simp [processChunk, this, hg]
  · intro t hp hg
    subst hp
    simp [processChunk, hg]
  · intro t hp hg
    subst hp
    have : ("openrouter" : String) ≠ "google" := by decide
    simp [processChunk, this, hg]

theorem processChunk_never_raises_witness :
    processChunk "zai" "gemma-3-27b-it" ⟨none, []⟩ none
      = "Error: Invalid Provider Selected" :=
  (processChunk_never_raises "zai" "gemma-3-27b-it" ⟨none, []⟩ none).1
    (by decide) (by decide)

end AnkiAi
